import Mathlib

/-!
Verification of the document-processing and LLM-orchestration pipeline of the
`hopkins-test` repository, shallowly embedded in Lean.

Strings are modelled as Lean `String` (lists of characters); the JavaScript
string operations used by the source (`substring`, `lastIndexOf`, `includes`,
`toLowerCase`, `trim`, regex replaces) are embedded as explicit functions on
`List Char` below.  Asynchronous effects (model calls, archive reads) are
modelled by passing the outcome of every external call in explicitly as data,
so that every pipeline function becomes a pure function of those outcomes.
-/

/-! ## Generic list/string helpers (embedding JS string primitives) -/

/-- `needle.isPrefixList haystack`: JS-style prefix test on character lists. -/
def isPrefixList : List Char → List Char → Bool
  | [], _ => true
  | _ :: _, [] => false
  | a :: as, b :: bs => a == b && isPrefixList as bs

/-- Embedding of JS `String.prototype.includes` (substring containment). -/
def isInfixList : List Char → List Char → Bool
  | needle, [] => needle.isEmpty
  | needle, c :: rest => isPrefixList needle (c :: rest) || isInfixList needle rest

/-- `haystack.includes needle` on Lean strings, as in the source's `includes`. -/
def includesStr (haystack needle : String) : Bool :=
  isInfixList needle.data haystack.data

/-- ASCII lower-casing of one character (the `A`-`Z` range), as JS
`toLowerCase` acts on the ASCII plane. -/
def charToLower (c : Char) : Char :=
  if 65 ≤ c.toNat ∧ c.toNat ≤ 90 then Char.ofNat (c.toNat + 32) else c

/-- Embedding of JS `String.prototype.toLowerCase` (they agree on ASCII,
which covers every string the classifier keywords and the retry-predicate
needles consist of). -/
def toLowerStr (s : String) : String :=
  ⟨s.data.map charToLower⟩

/-- Embedding of JS `Array.prototype.join(sep)`. -/
def joinSep (sep : String) : List String → String
  | [] => ""
  | [x] => x
  | x :: y :: rest => x ++ sep ++ joinSep sep (y :: rest)

/-- Index of the last occurrence of `c`, embedding JS `lastIndexOf`
(`none` stands for the JS result `-1`). -/
def lastIdxOf (c : Char) : List Char → Option Nat
  | [] => none
  | x :: rest =>
    match lastIdxOf c rest with
    | some i => some (i + 1)
    | none => if x == c then some 0 else none

/-! ## Text normalization (`normalizeText`, src/unnamed/part_011 lines 80-87)

The four regex replaces and the final `trim` of the source are embedded one
by one.  `isHWSChar` is the character class `[^\S\n]` (JS whitespace other
than `\n`); `isJSWSChar` is full JS whitespace, used by `trim`. -/

/-- JS whitespace characters other than the newline (the class `[^\S\n]`). -/
def isHWSChar (c : Char) : Bool :=
  let n := c.toNat
  n == 9 || n == 11 || n == 12 || n == 13 || n == 32 || n == 0xa0 ||
  n == 0x1680 || (0x2000 ≤ n && n ≤ 0x200a) || n == 0x2028 || n == 0x2029 ||
  n == 0x202f || n == 0x205f || n == 0x3000 || n == 0xfeff

/-- Full JS whitespace (the class `\s`), used by `String.prototype.trim`. -/
def isJSWSChar (c : Char) : Bool :=
  isHWSChar c || c == '\n'

/-- `.replace(/\r\n/g, '\n')`: left-to-right, non-overlapping. -/
def fixCRLF : List Char → List Char
  | [] => []
  | [c] => [c]
  | c1 :: c2 :: rest =>
    if c1 == '\r' && c2 == '\n' then '\n' :: fixCRLF rest
    else c1 :: fixCRLF (c2 :: rest)

/-- Worker for `collapseHWS`; the flag records whether the previous
character belonged to the whitespace run currently being collapsed. -/
def collapseHWSAux : Bool → List Char → List Char
  | _, [] => []
  | inRun, c :: rest =>
    if isHWSChar c then
      if inRun then collapseHWSAux true rest
      else ' ' :: collapseHWSAux true rest
    else c :: collapseHWSAux false rest

/-- `.replace(/[^\S\n]+/g, ' ')`: each maximal run of horizontal whitespace
becomes a single space. -/
def collapseHWS (l : List Char) : List Char :=
  collapseHWSAux false l

/-- Worker for `capNewlines`; the counter records how many newlines of the
current run have already been seen. -/
def capNewlinesAux : Nat → List Char → List Char
  | _, [] => []
  | seen, c :: rest =>
    if c == '\n' then
      if 2 ≤ seen then capNewlinesAux (seen + 1) rest
      else '\n' :: capNewlinesAux (seen + 1) rest
    else c :: capNewlinesAux 0 rest

/-- `.replace(/\n{3,}/g, '\n\n')`: each maximal run of three or more
newlines becomes exactly two (shorter runs are untouched). -/
def capNewlines (l : List Char) : List Char :=
  capNewlinesAux 0 l

/-- `.trim()` on both ends, over full JS whitespace. -/
def trimJS (l : List Char) : List Char :=
  ((l.dropWhile isJSWSChar).reverse.dropWhile isJSWSChar).reverse

/-- `normalizeText` (src/unnamed/part_011 lines 80-87): strip NULs, CRLF to
LF, collapse horizontal whitespace runs, cap blank lines, trim. -/
def normalizeChars (cs : List Char) : List Char :=
  trimJS (capNewlines (collapseHWS (fixCRLF (cs.filter (fun c => c.toNat ≠ 0)))))

/-- String-level wrapper of `normalizeChars`. -/
def normalizeText (s : String) : String :=
  ⟨normalizeChars s.data⟩

/-! ## Truncation (`truncateText`, src/unnamed/part_011 lines 93-119) -/

/-- `PROCESSING_LIMITS.MAX_TEXT_LENGTH` (src/server/src/utils/constants.ts). -/
def MAX_TEXT_LENGTH : Nat := 15000

/-- `TruncationResult` (src/unnamed/part_011 lines 65-74); the optional
spreadsheet metadata is not needed by any claim and is omitted. -/
structure TruncationResult where
  text : String
  truncated : Bool
  originalLength : Nat
deriving Repr, DecidableEq

/-- `truncateText` (src/unnamed/part_011 lines 93-119).  The JS condition
`lastSpaceIndex > availableLength * 0.8` is embedded as the exact rational
comparison `5 * i > 4 * availableLength`; for the only ceiling the source
ever passes (15000, hence `availableLength = 14997`) the floating-point
product lies strictly between 11997 and 11998, so the two comparisons agree
on every integer index.  A `lastIndexOf` result of `-1` (no space) falls to
the `none` branch, where the JS comparison is false. -/
def truncateText (text : String) (maxLength : Nat) : TruncationResult :=
  let normalizedText := normalizeText text
  if normalizedText.length ≤ maxLength then
    { text := normalizedText, truncated := false, originalLength := text.length }
  else
    let availableLength := maxLength - 3
    let truncatedChars := normalizedText.data.take availableLength
    let finalText :=
      match lastIdxOf ' ' truncatedChars with
      | some i =>
        if 5 * i > 4 * availableLength then truncatedChars.take i else truncatedChars
      | none => truncatedChars
    { text := ⟨finalText ++ ['.', '.', '.']⟩, truncated := true,
      originalLength := text.length }

/-! ## Per-format extractors (src/unnamed/part_011 lines 124-274)

The third-party extraction libraries (pdf-parse, mammoth, xlsx, csv-parser)
are external collaborators: each extractor is modelled as a function of the
data the library hands back (raw text, or sheet/row structure). -/

/-- `truncatePDF` after the pdf-parse text layer produced `text`. -/
def truncatePDF (text : String) : TruncationResult :=
  truncateText text MAX_TEXT_LENGTH

/-- `truncateDOCX` after mammoth produced the raw paragraph text. -/
def truncateDOCX (text : String) : TruncationResult :=
  truncateText text MAX_TEXT_LENGTH

/-- `truncateTXT` on the UTF-8 decoded buffer. -/
def truncateTXT (text : String) : TruncationResult :=
  truncateText text MAX_TEXT_LENGTH

/-- Flattened text of the first 200 parsed CSV data rows (each row
tab-joined, rows newline-joined), as accumulated by `truncateCSV`'s
streaming handler. -/
def csvText (rows : List (List String)) : String :=
  joinSep "\n" ((rows.take 200).map (joinSep "\t"))

/-- `truncateCSV` after csv-parser produced `rows` (the format metadata is
omitted; the `text`/`truncated`/`originalLength` fields are spread from the
inner `truncateText` call). -/
def truncateCSV (rows : List (List String)) : TruncationResult :=
  truncateText (csvText rows) MAX_TEXT_LENGTH

/-- The sheet loop of `truncateXLSX` (src/unnamed/part_011 lines 161-181):
given the workbook as a list of (sheet name, rows) pairs and the row count
so far, returns the accumulated `allText` and the final `totalRows`.  Each
sheet contributes at most `200 - totalRows` rows and the loop breaks once
200 rows are reached. -/
def xlsxLoop : List (String × List (List String)) → Nat → String × Nat
  | [], totalRows => ("", totalRows)
  | (name, rows) :: rest, totalRows =>
    let limited := rows.take (200 - totalRows)
    let total2 := totalRows + limited.length
    let sheetText := joinSep "\n" (limited.map (joinSep "\t"))
    let chunk := "Sheet: " ++ name ++ "\n" ++ sheetText ++ "\n\n"
    if 200 ≤ total2 then (chunk, total2)
    else
      let r := xlsxLoop rest total2
      (chunk ++ r.1, r.2)

/-- `truncateXLSX` (src/unnamed/part_011 lines 156-196): the `text` field is
taken from `truncateText`, but the `truncated` flag is `totalRows >= maxRows`
(the 200-row ceiling), not the flag produced by `truncateText`. -/
def truncateXLSX (sheets : List (String × List (List String))) : TruncationResult :=
  let r := xlsxLoop sheets 0
  { text := (truncateText r.1 MAX_TEXT_LENGTH).text,
    truncated := decide (200 ≤ r.2),
    originalLength := r.1.length }

/-! ## Category classifier (src/server/src/utils/category-classifier.ts) -/

/-- `DocumentCategory` (src/server/src/types/analysis.ts): the closed
five-value category enumeration. -/
inductive DocumentCategory where
  | financial
  | legal
  | commercial
  | operations
  | other
deriving Repr, DecidableEq

/-- `CATEGORY_KEYWORDS` (category-classifier.ts lines 12-30). -/
def CATEGORY_KEYWORDS : DocumentCategory → List String
  | .financial =>
    ["revenue", "profit", "income", "expense", "balance sheet", "cash flow",
     "audit", "financial statement", "budget", "forecast", "ebitda", "assets",
     "liabilities", "equity", "p&l", "quarterly", "earnings"]
  | .legal =>
    ["contract", "agreement", "liability", "indemnity", "warranty", "clause",
     "legal", "compliance", "regulation", "litigation", "dispute",
     "settlement", "jurisdiction", "court", "law"]
  | .commercial =>
    ["pricing", "price", "cost", "fee", "rate", "discount", "marketing",
     "sales", "customer", "client", "deal", "transaction", "purchase",
     "order", "invoice", "payment", "quotation"]
  | .operations =>
    ["process", "procedure", "workflow", "operation", "manual", "guide",
     "instruction", "training", "safety", "security", "maintenance",
     "equipment", "facility", "logistics", "supply chain"]
  | .other => []

/-- Keyword score of one category over the lower-cased text: one point per
listed keyword whose text occurs anywhere in the combined string
(classifier loop, lines 52-61). -/
def scoreFor (text : String) (c : DocumentCategory) : Nat :=
  ((CATEGORY_KEYWORDS c).filter (fun k => includesStr text k)).length

/-- Declaration order of the `scores` object literal (lines 44-50), which is
the iteration order of `Object.entries` in the source. -/
def categoryOrder : List DocumentCategory :=
  [.financial, .legal, .commercial, .operations, .other]

/-- `classifyDocument` (category-classifier.ts lines 39-73).  JS
`toLowerCase` is embedded as `toLowerStr` (they agree on ASCII, which
covers every keyword).  `Math.max(...Object.values(scores))` is the fold
over `categoryOrder`; the JS `find(...)?.[0] || 'other'` is `find?` with an
`other` default. -/
def classifyDocument (filename content : String) : DocumentCategory :=
  let text := toLowerStr (filename ++ " " ++ content)
  let scores := fun c => scoreFor text c
  let maxScore := (categoryOrder.map scores).foldr max 0
  if maxScore = 0 then .other
  else
    match categoryOrder.find? (fun c => scores c == maxScore) with
    | some c => c
    | none => .other

/-! ## Findings and aggregation (src/server/src/types/analysis.ts,
src/server/src/utils/aggregate.ts) -/

/-- `DocResult` / DocumentFinding: the structured per-document analysis
output. -/
structure DocResult where
  doc : String
  category : DocumentCategory
  facts : List String
  red_flags : List String
deriving Repr, DecidableEq

/-- `AggregateCounts` (src/server/src/types/analysis.ts). -/
structure AggregateCounts where
  facts : Nat
  red_flags : Nat
deriving Repr, DecidableEq

/-- `Aggregate`: fixed mapping from all five categories to counts, in the
field order of the source's object literals. -/
structure Aggregate where
  financial : AggregateCounts
  legal : AggregateCounts
  operations : AggregateCounts
  commercial : AggregateCounts
  other : AggregateCounts
deriving Repr, DecidableEq

/-- Total lookup of one category's counts in an `Aggregate`. -/
def Aggregate.get (a : Aggregate) : DocumentCategory → AggregateCounts
  | .financial => a.financial
  | .legal => a.legal
  | .commercial => a.commercial
  | .operations => a.operations
  | .other => a.other

/-- `createEmptyAggregate` (aggregate.ts lines 28-36). -/
def createEmptyAggregate : Aggregate :=
  { financial := ⟨0, 0⟩, legal := ⟨0, 0⟩, operations := ⟨0, 0⟩,
    commercial := ⟨0, 0⟩, other := ⟨0, 0⟩ }

/-- The reducer step of `aggregateResults` (aggregate.ts lines 16-21): add
one document's `facts.length` and `red_flags.length` into the bucket of its
reported category. -/
def aggAdd (acc : Aggregate) (d : DocResult) : Aggregate :=
  match d.category with
  | .financial => { acc with financial :=
      ⟨acc.financial.facts + d.facts.length, acc.financial.red_flags + d.red_flags.length⟩ }
  | .legal => { acc with legal :=
      ⟨acc.legal.facts + d.facts.length, acc.legal.red_flags + d.red_flags.length⟩ }
  | .commercial => { acc with commercial :=
      ⟨acc.commercial.facts + d.facts.length, acc.commercial.red_flags + d.red_flags.length⟩ }
  | .operations => { acc with operations :=
      ⟨acc.operations.facts + d.facts.length, acc.operations.red_flags + d.red_flags.length⟩ }
  | .other => { acc with other :=
      ⟨acc.other.facts + d.facts.length, acc.other.red_flags + d.red_flags.length⟩ }

/-- `aggregateResults` (aggregate.ts lines 7-22): fold over the documents
starting from the zeroed aggregate. -/
def aggregateResults (docs : List DocResult) : Aggregate :=
  docs.foldl aggAdd createEmptyAggregate

/-! ## Retry policy (src/server/src/utils/retry.ts)

Errors are modelled by their message string (the only part of a JS `Error`
the retry logic inspects). -/

/-- `shouldRetry` (retry.ts lines 12-37). -/
def shouldRetry (msg : String) : Bool :=
  let m := toLowerStr msg
  if includesStr m "rate limit" || includesStr m "quota" ||
     includesStr m "timeout" || includesStr m "network" ||
     includesStr m "temporary" || includesStr m "service unavailable" then
    true
  else if includesStr m "invalid api key" || includesStr m "authentication" ||
     includesStr m "unauthorized" || includesStr m "forbidden" ||
     includesStr m "not found" || includesStr m "bad request" then
    false
  else
    true

/-- The attempt loop of `withRetry` (retry.ts lines 107-126).  `f i` is the
outcome of the i-th call of the wrapped operation (0-based); the second
component counts how many calls were made.  The first argument of the pair
of counters is the current attempt index, the second how many loop
iterations remain; `remaining = 0` inside the body is `attempt ===
maxAttempts - 1`.  The backoff sleep between attempts has no effect on the
returned value and is not modelled.  (With `maxAttempts = 0` the JS loop
body never runs and the function throws an unset `lastError`; that case is
modelled as an empty error and is outside every claim.) -/
def withRetryGo (f : Nat → Except String α) (p : String → Bool) :
    Nat → Nat → Except String α × Nat
  | _, 0 => (.error "", 0)
  | i, remaining + 1 =>
    match f i with
    | .ok v => (.ok v, 1)
    | .error e =>
      if !(p e) || remaining == 0 then (.error e, 1)
      else
        let r := withRetryGo f p (i + 1) remaining
        (r.1, r.2 + 1)

/-- `withRetry` (retry.ts lines 100-129) with retry predicate `p` and
attempt ceiling `maxAttempts` (`DEFAULT_RETRY_CONFIG.maxAttempts = 5`). -/
def withRetry (f : Nat → Except String α) (p : String → Bool)
    (maxAttempts : Nat) : Except String α × Nat :=
  withRetryGo f p 0 maxAttempts

/-! ## JSON guard and DocResult schema (src/unnamed/part_011 lines 26-52,
src/unnamed/part_007 lines 20-25)

A model reply is modelled as `Option JsonVal`: `none` when `JSON.parse`
throws, `some j` when it yields the JSON document `j`. -/

/-- Parsed JSON values. -/
inductive JsonVal where
  | str (s : String)
  | num (n : Int)
  | boo (b : Bool)
  | null
  | arr (xs : List JsonVal)
  | obj (fields : List (String × JsonVal))

/-- First-match field lookup in a parsed JSON object (`JSON.parse` output
has no duplicate keys). -/
def getField (k : String) : List (String × JsonVal) → Option JsonVal
  | [] => none
  | (k2, v) :: rest => if k2 == k then some v else getField k rest

/-- The `z.enum(['financial', 'legal', 'commercial', 'operations',
'other'])` check. -/
def parseCategory : String → Option DocumentCategory
  | "financial" => some .financial
  | "legal" => some .legal
  | "commercial" => some .commercial
  | "operations" => some .operations
  | "other" => some .other
  | _ => none

/-- `z.array(z.string()...)` element typing: succeeds only when every
element is a JSON string. -/
def allStrings : List JsonVal → Option (List String)
  | [] => some []
  | .str s :: rest => (allStrings rest).map (fun l => s :: l)
  | _ :: _ => none

/-- `DocResultSchema` (src/unnamed/part_007 lines 20-25): object with
`doc` a non-empty string, `category` in the closed enum, `facts` an array
of 1-5 non-empty strings, `red_flags` an array of 0-5 non-empty strings.
Note the schema places no upper bound on the length of the individual
strings.  Zod requires each field to be present and well-typed and strips
unknown keys. -/
def zodCheckDocResult (j : JsonVal) : Option DocResult :=
  match j with
  | .obj fields =>
    match getField "doc" fields, getField "category" fields,
        getField "facts" fields, getField "red_flags" fields with
    | some (.str docName), some (.str cat), some (.arr factsJ), some (.arr flagsJ) =>
      match parseCategory cat, allStrings factsJ, allStrings flagsJ with
      | some c, some facts, some flags =>
        if 1 ≤ docName.length ∧ 1 ≤ facts.length ∧ facts.length ≤ 5 ∧
            (∀ s ∈ facts, 1 ≤ s.length) ∧ flags.length ≤ 5 ∧
            (∀ s ∈ flags, 1 ≤ s.length) then
          some ⟨docName, c, facts, flags⟩
        else none
      | _, _, _ => none
    | _, _, _, _ => none
  | _ => none

/-- `validateJSONWithZod` specialised to `DocResultSchema` (src/unnamed/
part_011 lines 26-52): parse failure and schema failure produce errors with
the fixed prefixes `Invalid JSON:` and `Schema validation failed:`; the
variable detail text after each prefix is abstracted. -/
def validateJSONWithZod (content : Option JsonVal) : Except String DocResult :=
  match content with
  | none => .error "Invalid JSON: unexpected token"
  | some j =>
    match zodCheckDocResult j with
    | some d => .ok d
    | none => .error "Schema validation failed: invalid response"

/-! ## LM gateway, structured mode (src/unnamed/part_012 lines 50-175) -/

/-- The environment of one `analyzeDocumentWithJSONGuard` invocation: the
credential state and the model's replies.  `firstReply`/`retryReply` are
`none` when the completion has no content (the source's `LLM returned empty
response` branches), otherwise `some (Option JsonVal)` as above.  The
prompt contents (filename, advisory category, truncated text) only shape
what the model answers and are absorbed into the reply fields. -/
structure GuardEnv where
  apiKeyPresent : Bool
  firstReply : Option (Option JsonVal)
  retryReply : Option (Option JsonVal)

/-- The message of the missing-credential error after the catch block at
src/unnamed/part_012 lines 151-174 re-throws it with context: the original
message `OPENAI_API_KEY environment variable is not set` contains none of
the substrings `API key`, `rate limit`, `quota`, `model` tested there, so
it is wrapped by the final `Document analysis failed:` re-throw. -/
def missingKeyMsg : String :=
  "Document analysis failed: OPENAI_API_KEY environment variable is not set"

/-- `analyzeDocumentWithJSONGuard` (src/unnamed/part_012 lines 50-175).
Returns the validated finding (the source returns the raw content string;
downstream re-parses it, so the model carries the parsed finding) together
with the number of model calls made.  The credential check precedes the
first model call; a validation failure triggers exactly one corrective
follow-up; a second failure raises `InvalidJSONError`, which the catch
block re-throws unchanged (`instanceof InvalidJSONError`), while
empty-response errors acquire the `Document analysis failed:` context
prefix. -/
def analyzeDocumentWithJSONGuard (env : GuardEnv) : Except String DocResult × Nat :=
  if env.apiKeyPresent = false then
    (.error missingKeyMsg, 0)
  else
    match env.firstReply with
    | none => (.error "Document analysis failed: LLM returned empty response", 1)
    | some content =>
      match validateJSONWithZod content with
      | .ok d => (.ok d, 1)
      | .error e1 =>
        match env.retryReply with
        | none => (.error "Document analysis failed: LLM returned empty response on retry", 2)
        | some retryContent =>
          match validateJSONWithZod retryContent with
          | .ok d => (.ok d, 2)
          | .error e2 =>
            (.error ("LLM returned invalid JSON after retry. Original: " ++ e1 ++
              ", Retry: " ++ e2), 2)

/-! ## Processing pipeline (src/unnamed/part_010) -/

/-- Per-file external outcomes: the result of `truncateFile` on the file's
buffer (the extraction libraries may throw), and the gateway environment of
each outer retry attempt. -/
structure FileEnv where
  truncation : Except String TruncationResult
  guardAt : Nat → GuardEnv

/-- `ProcessedFile` (src/unnamed/part_010 lines 15-22).  The JS `llmErrors`
field is `undefined` when no error was recorded; both that and the absent
list are modelled as `[]`.  `llmAnalysis` carries the parsed finding (see
`analyzeDocumentWithJSONGuard`). -/
structure ProcessedFile where
  filename : String
  truncatedContent : TruncationResult
  processingErrors : List String
  llmAnalysis : Option DocResult
  llmErrors : List String
deriving Repr, DecidableEq

/-- `processSingleFile` (src/unnamed/part_010 lines 36-96): truncate,
classify (the advisory category only feeds the prompt, which is absorbed
into `GuardEnv`), then the gateway call wrapped in `withRetry` with
`maxAttempts: 5` and the default `shouldRetry` predicate.  A truncation
failure is caught at lines 79-95; an LLM failure is caught at lines 65-68
and recorded in `llmErrors` only. -/
def processSingleFile (filename : String) (env : FileEnv) : ProcessedFile :=
  match env.truncation with
  | .error msg =>
    { filename,
      truncatedContent := { text := "", truncated := false, originalLength := 0 },
      processingErrors := ["Failed to process " ++ filename ++ ": " ++ msg],
      llmAnalysis := none, llmErrors := [] }
  | .ok truncatedContent =>
    match (withRetry (fun i => (analyzeDocumentWithJSONGuard (env.guardAt i)).1)
        shouldRetry 5).1 with
    | .ok d =>
      { filename, truncatedContent, processingErrors := [],
        llmAnalysis := some d, llmErrors := [] }
    | .error msg =>
      { filename, truncatedContent, processingErrors := [],
        llmAnalysis := none,
        llmErrors := ["LLM analysis failed for " ++ filename ++ ": " ++ msg] }

/-- The outcome of `extractZipFiles` (src/server/src/utils/zip-extraction.ts)
when it resolves: admitted entry names and the per-entry skip reasons.  The
entry buffers are carried by `FileEnv` per name. -/
structure ZipExtraction where
  files : List String
  errors : List String

/-- `ProcessingResult` (src/unnamed/part_010 lines 24-31); the wall-clock
`totalProcessingTime` field is real time and is not modelled. -/
structure ProcessingResult where
  processedFiles : List ProcessedFile
  totalFiles : Nat
  successfulFiles : Nat
  failedFiles : Nat
  processingErrors : List String
deriving Repr, DecidableEq

/-- `processZipFile` (src/unnamed/part_010 lines 101-168).  `extraction` is
the settled outcome of `extractZipFiles` (rejection when the archive is
unreadable or batch validation fails).  The batched `Promise.all` loop
preserves submission order and concatenates batches in order, so it equals
the sequential map.  Every failure path returns a `ProcessingResult`; the
function never throws. -/
def processZipFile (extraction : Except String ZipExtraction)
    (envOf : String → FileEnv) : ProcessingResult :=
  match extraction with
  | .error msg =>
    { processedFiles := [], totalFiles := 0, successfulFiles := 0,
      failedFiles := 0,
      processingErrors := ["Processing pipeline failed: " ++ msg] }
  | .ok ex =>
    if ex.files.length = 0 then
      { processedFiles := [], totalFiles := 0, successfulFiles := 0,
        failedFiles := 0,
        processingErrors := ["No valid files found in ZIP archive"] }
    else
      let processedFiles := ex.files.map (fun n => processSingleFile n (envOf n))
      { processedFiles,
        totalFiles := ex.files.length,
        successfulFiles :=
          (processedFiles.filter (fun f => f.processingErrors.length == 0)).length,
        failedFiles :=
          (processedFiles.filter (fun f => f.processingErrors.length != 0)).length,
        processingErrors :=
          ex.errors ++ (processedFiles.map (fun f => f.processingErrors)).flatten }

/-! ## Response assembly (src/server/src/routes/analyse.ts lines 60-132) -/

/-- `AnalyseResponse` (src/server/src/types/analysis.ts). -/
structure AnalyseResponse where
  docs : List DocResult
  aggregate : Aggregate
  summaryText : String
  errors : List String
deriving Repr, DecidableEq

/-- `Object.values(aggregate).reduce((sum, cat) => sum + cat.facts, 0)`
(analyse.ts line 110), in the field order of the literal at lines 62-68. -/
def totalFacts (a : Aggregate) : Nat :=
  a.financial.facts + a.legal.facts + a.operations.facts +
    a.commercial.facts + a.other.facts

/-- As `totalFacts`, for `red_flags`. -/
def totalRedFlags (a : Aggregate) : Nat :=
  a.financial.red_flags + a.legal.red_flags + a.operations.red_flags +
    a.commercial.red_flags + a.other.red_flags

/-- The locally computed fallback summary of analyse.ts line 110. -/
def fallbackSummary (docs : List DocResult) (aggregate : Aggregate) : String :=
  let n := docs.length
  let f := totalFacts aggregate
  let r := totalRedFlags aggregate
  s!"Successfully analyzed {n} documents. Found {f} facts and {r} red flags."

/-- Steps 5-6 of `analyseHandler` (analyse.ts lines 60-118): collect the
findings of the files that have an `llmAnalysis` (the stored string was
validated by the gateway, so its `JSON.parse` at line 79 always succeeds
and yields the finding), aggregate them with the in-line loop (the same
fold as `aggregateResults`), and substitute the fallback string when
`getSummaryText` rejects.  The handler then persists this response under a
fresh id and replies with it. -/
def buildAnalyseResponse (pr : ProcessingResult)
    (summaryOutcome : Except String String) : AnalyseResponse :=
  let docs := pr.processedFiles.filterMap (fun f => f.llmAnalysis)
  let aggregate := docs.foldl aggAdd createEmptyAggregate
  let summaryText :=
    match summaryOutcome with
    | .ok s => s
    | .error _ => fallbackSummary docs aggregate
  { docs, aggregate, summaryText, errors := pr.processingErrors }

/-! ## Lemmas about the retry loop -/

/-- One unfolding step of the attempt loop. -/
theorem withRetryGo_succ (f : Nat → Except String α) (p : String → Bool)
    (i r : Nat) :
    withRetryGo f p i (r + 1) =
      match f i with
      | .ok v => (.ok v, 1)
      | .error e =>
        if !(p e) || r == 0 then (.error e, 1)
        else ((withRetryGo f p (i + 1) r).1, (withRetryGo f p (i + 1) r).2 + 1) :=
  rfl

/-- If the first `N - 1` calls starting at index `i` fail retryably and the
`N`-th succeeds, the loop returns that value after exactly `N` calls. -/
theorem withRetryGo_ok (f : Nat → Except String α) (p : String → Bool) :
    ∀ (N R i : Nat) (v : α), 1 ≤ N → N ≤ R →
      (∀ j, j + 1 < N → ∃ e, f (i + j) = .error e ∧ p e = true) →
      f (i + (N - 1)) = .ok v →
      withRetryGo f p i R = (.ok v, N) := by
  intro N
  induction N with
  | zero => omega
  | succ n ih =>
    intro R i v _ hNR hfail hok
    obtain ⟨r, rfl⟩ : ∃ r, R = r + 1 := ⟨R - 1, by omega⟩
    rw [withRetryGo_succ]
    cases n with
    | zero =>
      simp only [Nat.add_sub_cancel, Nat.add_zero] at hok
      rw [hok]
    | succ m =>
      obtain ⟨e, he, hpe⟩ := hfail 0 (by omega)
      simp only [Nat.add_zero] at he
      have hr : withRetryGo f p (i + 1) r = (.ok v, m + 1) := by
        refine ih r (i + 1) v (by omega) (by omega) ?_ ?_
        · intro j hj
          obtain ⟨e2, he2, hpe2⟩ := hfail (j + 1) (by omega)
          exact ⟨e2, by rw [show i + 1 + j = i + (j + 1) by omega]; exact he2, hpe2⟩
        · rw [show i + 1 + (m + 1 - 1) = i + (m + 1 + 1 - 1) by omega]
          exact hok
      have hrm : (r == 0) = false := by
        rw [beq_eq_false_iff_ne]
        omega
      rw [he]
      simp [hpe, hrm, hr]

/-- A first error the predicate rejects is propagated after exactly one
call. -/
theorem withRetryGo_noretry (f : Nat → Except String α) (p : String → Bool)
    (R i : Nat) (e : String) (hR : 1 ≤ R) (he : f i = .error e)
    (hp : p e = false) :
    withRetryGo f p i R = (.error e, 1) := by
  obtain ⟨r, rfl⟩ : ∃ r, R = r + 1 := ⟨R - 1, by omega⟩
  rw [withRetryGo_succ, he]
  simp [hp]

/-- If every one of the `R` calls starting at `i` fails retryably, the loop
makes all `R` calls and re-raises the last error. -/
theorem withRetryGo_exhaust (f : Nat → Except String α) (p : String → Bool) :
    ∀ (R i : Nat), 1 ≤ R →
      (∀ j, j < R → ∃ e, f (i + j) = .error e ∧ p e = true) →
      ∃ e, f (i + (R - 1)) = .error e ∧
        withRetryGo f p i R = (.error e, R) := by
  intro R
  induction R with
  | zero => omega
  | succ r ih =>
    intro i _ hfail
    obtain ⟨e, he, hpe⟩ := hfail 0 (by omega)
    simp only [Nat.add_zero] at he
    cases r with
    | zero =>
      refine ⟨e, by simpa using he, ?_⟩
      rw [withRetryGo_succ, he]
      simp
    | succ m =>
      obtain ⟨e2, he2, hgo⟩ := ih (i + 1) (by omega) (fun j hj => by
        obtain ⟨e3, he3, hpe3⟩ := hfail (j + 1) (by omega)
        exact ⟨e3, by rw [show i + 1 + j = i + (j + 1) by omega]; exact he3, hpe3⟩)
      refine ⟨e2, ?_, ?_⟩
      · rw [show i + (m + 1 + 1 - 1) = i + 1 + (m + 1 - 1) by omega]
        exact he2
      · have hm : ((m + 1 : Nat) == 0) = false := by
          rw [beq_eq_false_iff_ne]
          omega
        rw [withRetryGo_succ, he]
        simp [hpe, hm, hgo]

/-! ## Response assembly and run-level error behaviour (C2, C10) -/

/-- C10.  When narrative summary generation rejects for any reason, the
handler still produces the response: nothing is appended to `errors` (they
stay exactly the pipeline's error list) and `summaryText` becomes the
locally computed fallback string derived from the accepted docs and the
aggregate counts. -/
theorem C10_summary_fallback (pr : ProcessingResult) (e : String) :
    (buildAnalyseResponse pr (Except.error e)).errors = pr.processingErrors
    ∧ (buildAnalyseResponse pr (Except.error e)).summaryText =
        fallbackSummary (buildAnalyseResponse pr (Except.error e)).docs
          (buildAnalyseResponse pr (Except.error e)).aggregate
    ∧ (buildAnalyseResponse pr (Except.error e)).docs =
        pr.processedFiles.filterMap (fun f => f.llmAnalysis)
    ∧ (buildAnalyseResponse pr (Except.error e)).aggregate =
        aggregateResults (pr.processedFiles.filterMap (fun f => f.llmAnalysis)) :=
  ⟨rfl, rfl, rfl, rfl⟩

/-- C2 counterexample: neither a corrupt archive nor an archive with zero
eligible entries aborts the run.  `processZipFile` returns a normal
`ProcessingResult` in both cases, and for the zero-entry case the handler
goes on to build a full `AnalyseResponse` (which it persists and returns),
contradicting "no partial AnalysisResult is produced or persisted". -/
theorem C2_abort_counterexample :
    processZipFile (Except.error "ZIP extraction failed: corrupt")
        (fun _ => ⟨Except.error "unused", fun _ => GuardEnv.mk false none none⟩) =
      { processedFiles := [], totalFiles := 0, successfulFiles := 0,
        failedFiles := 0,
        processingErrors :=
          ["Processing pipeline failed: ZIP extraction failed: corrupt"] }
    ∧ buildAnalyseResponse
        (processZipFile (Except.ok ⟨[], []⟩)
          (fun _ => ⟨Except.error "unused", fun _ => GuardEnv.mk false none none⟩))
        (Except.ok "narrative") =
      { docs := [], aggregate := createEmptyAggregate,
        summaryText := "narrative",
        errors := ["No valid files found in ZIP archive"] } :=
  ⟨rfl, rfl⟩

/-- C2 (amended): an unreadable archive or zero eligible entries does not
abort the run.  `processZipFile` catches the failure and returns a normal
`ProcessingResult` whose `processingErrors` is the single explanatory
string, and the handler still assembles (and persists) an
`AnalyseResponse` with no docs, a zero aggregate and that string in
`errors`. -/
theorem C2_no_abort (msg : String) (errs : List String)
    (envOf envOf2 : String → FileEnv) (s : String) :
    processZipFile (Except.error msg) envOf =
      { processedFiles := [], totalFiles := 0, successfulFiles := 0,
        failedFiles := 0,
        processingErrors := ["Processing pipeline failed: " ++ msg] }
    ∧ processZipFile (Except.ok ⟨[], errs⟩) envOf2 =
      { processedFiles := [], totalFiles := 0, successfulFiles := 0,
        failedFiles := 0,
        processingErrors := ["No valid files found in ZIP archive"] }
    ∧ buildAnalyseResponse (processZipFile (Except.ok ⟨[], errs⟩) envOf2)
        (Except.ok s) =
      { docs := [], aggregate := createEmptyAggregate, summaryText := s,
        errors := ["No valid files found in ZIP archive"] } :=
  ⟨rfl, rfl, rfl⟩

/-! ## Lemmas about the JSON guard and schema (C3) -/

/-- Soundness of the embedded `DocResultSchema`: an accepted value has a
non-empty document name, 1-5 non-empty facts and 0-5 non-empty red flags
(category membership is carried by the `DocumentCategory` type). -/
theorem zodCheck_sound (j : JsonVal) (d : DocResult)
    (h : zodCheckDocResult j = some d) :
    1 ≤ d.doc.length
    ∧ 1 ≤ d.facts.length ∧ d.facts.length ≤ 5
    ∧ (∀ s ∈ d.facts, 1 ≤ s.length)
    ∧ d.red_flags.length ≤ 5
    ∧ (∀ s ∈ d.red_flags, 1 ≤ s.length) := by
  unfold zodCheckDocResult at h
  split at h
  · split at h
    · split at h
      · split at h
        · rename_i hcond
          obtain rfl := Option.some.inj h
          exact hcond
        · exact absurd h (by simp)
      · exact absurd h (by simp)
    · exact absurd h (by simp)
  · exact absurd h (by simp)

/-- A successful `validateJSONWithZod` outcome comes from a parsed JSON
document accepted by the schema. -/
theorem validateJSON_ok (content : Option JsonVal) (d : DocResult)
    (h : validateJSONWithZod content = Except.ok d) :
    ∃ j, content = some j ∧ zodCheckDocResult j = some d := by
  unfold validateJSONWithZod at h
  split at h
  · exact absurd h (by simp)
  · rename_i j
    split at h
    · rename_i d2 hz
      obtain rfl := Except.ok.inj h
      exact ⟨j, rfl, hz⟩
    · exact absurd h (by simp)

/-- C3 (amended).  The structured analysis accepts a reply only when it
parses as JSON and the parsed document passes `DocResultSchema`; every
accepted finding therefore has a non-empty filename, a category in the
closed enum, 1-5 non-empty facts and 0-5 non-empty red flags.  (The
schema places no 300-character ceiling on the individual strings; see the
counterexample.) -/
theorem C3_schema_soundness (env : GuardEnv) (d : DocResult) (n : Nat)
    (hok : analyzeDocumentWithJSONGuard env = (Except.ok d, n)) :
    (∃ j, (env.firstReply = some (some j) ∨ env.retryReply = some (some j)) ∧
      zodCheckDocResult j = some d)
    ∧ 1 ≤ d.doc.length
    ∧ 1 ≤ d.facts.length ∧ d.facts.length ≤ 5
    ∧ (∀ s ∈ d.facts, 1 ≤ s.length)
    ∧ d.red_flags.length ≤ 5
    ∧ (∀ s ∈ d.red_flags, 1 ≤ s.length) := by
  have hj : ∃ j, (env.firstReply = some (some j) ∨ env.retryReply = some (some j)) ∧
      zodCheckDocResult j = some d := by
    unfold analyzeDocumentWithJSONGuard at hok
    split at hok
    · exact absurd hok (by simp)
    · split at hok
      · exact absurd hok (by simp)
      · rename_i content hfirst
        split at hok
        · rename_i d2 hval
          injection hok with hok1 hok2
          obtain rfl := Except.ok.inj hok1
          obtain ⟨j, rfl, hz⟩ := validateJSON_ok content d2 hval
          exact ⟨j, Or.inl hfirst, hz⟩
        · split at hok
          · exact absurd hok (by simp)
          · rename_i retryContent hretry
            split at hok
            · rename_i d2 hval
              injection hok with hok1 hok2
              obtain rfl := Except.ok.inj hok1
              obtain ⟨j, rfl, hz⟩ := validateJSON_ok retryContent d2 hval
              exact ⟨j, Or.inr hretry, hz⟩
            · exact absurd hok (by simp)
  obtain ⟨j, hwhere, hz⟩ := hj
  exact ⟨⟨j, hwhere, hz⟩, zodCheck_sound j d hz⟩

set_option maxRecDepth 8000 in
/-- C3 counterexample: a reply whose single fact is 301 characters long is
accepted by the gateway (the schema has no per-string length ceiling), so
"each at most 300 characters" does not hold of accepted findings. -/
theorem C3_schema_counterexample :
    analyzeDocumentWithJSONGuard
      { apiKeyPresent := true,
        firstReply := some (some (JsonVal.obj
          [("doc", JsonVal.str "a.txt"),
           ("category", JsonVal.str "financial"),
           ("facts", JsonVal.arr [JsonVal.str ⟨List.replicate 301 'x'⟩]),
           ("red_flags", JsonVal.arr [])])),
        retryReply := none } =
      (Except.ok ⟨"a.txt", DocumentCategory.financial,
        [⟨List.replicate 301 'x'⟩], []⟩, 1)
    ∧ 300 < (⟨List.replicate 301 'x'⟩ : String).length :=
  ⟨rfl, by decide⟩

/-- Concrete instance of C3: a well-formed reply is accepted on the first
attempt and satisfies the schema bounds. -/
theorem C3_schema_soundness_witness :
    (∃ j, ((some (some (JsonVal.obj
        [("doc", JsonVal.str "a.txt"),
         ("category", JsonVal.str "financial"),
         ("facts", JsonVal.arr [JsonVal.str "fact one"]),
         ("red_flags", JsonVal.arr [])])) : Option (Option JsonVal)) = some (some j) ∨
        (none : Option (Option JsonVal)) = some (some j)) ∧
      zodCheckDocResult j =
        some ⟨"a.txt", DocumentCategory.financial, ["fact one"], []⟩)
    ∧ 1 ≤ ("a.txt" : String).length
    ∧ 1 ≤ (["fact one"] : List String).length
    ∧ (["fact one"] : List String).length ≤ 5
    ∧ (∀ s ∈ (["fact one"] : List String), 1 ≤ s.length)
    ∧ ([] : List String).length ≤ 5
    ∧ (∀ s ∈ ([] : List String), 1 ≤ s.length) :=
  C3_schema_soundness
    { apiKeyPresent := true,
      firstReply := some (some (JsonVal.obj
        [("doc", JsonVal.str "a.txt"),
         ("category", JsonVal.str "financial"),
         ("facts", JsonVal.arr [JsonVal.str "fact one"]),
         ("red_flags", JsonVal.arr [])])),
      retryReply := none }
    ⟨"a.txt", DocumentCategory.financial, ["fact one"], []⟩ 1 rfl

/-! ## Truncation lemmas (C5, C6) -/

/-- Length of a string built from a character list. -/
theorem strLength_mk (l : List Char) : (⟨l⟩ : String).length = l.length := rfl

/-- C5 (amended).  The PDF, DOCX, TXT and CSV extractors take their
`truncated` flag from `truncateText`, where it is true exactly when the
normalized text exceeds the 15,000-character ceiling; the XLSX extractor
instead sets the flag from the 200-row ceiling (`totalRows >= maxRows`),
independent of the text-length ceiling. -/
theorem C5_truncated_flag :
    (∀ tx : String, (truncateText tx MAX_TEXT_LENGTH).truncated = true ↔
      MAX_TEXT_LENGTH < (normalizeText tx).length)
    ∧ (∀ tx : String, truncatePDF tx = truncateText tx MAX_TEXT_LENGTH
        ∧ truncateDOCX tx = truncateText tx MAX_TEXT_LENGTH
        ∧ truncateTXT tx = truncateText tx MAX_TEXT_LENGTH)
    ∧ (∀ rows, (truncateCSV rows).truncated = true ↔
        MAX_TEXT_LENGTH < (normalizeText (csvText rows)).length)
    ∧ (∀ sheets, (truncateXLSX sheets).truncated = true ↔
        200 ≤ (xlsxLoop sheets 0).2) := by
  have key : ∀ tx : String, (truncateText tx MAX_TEXT_LENGTH).truncated = true ↔
      MAX_TEXT_LENGTH < (normalizeText tx).length := by
    intro tx
    simp only [truncateText]
    by_cases h : (normalizeText tx).length ≤ MAX_TEXT_LENGTH
    · rw [if_pos h]
      simp
      omega
    · rw [if_neg h]
      simp
      omega
  refine ⟨key, fun tx => ⟨rfl, rfl, rfl⟩, fun rows => key _, fun sheets => ?_⟩
  simp [truncateXLSX]

set_option maxRecDepth 8000 in
/-- C5 counterexample: a one-sheet workbook of 200 single-character rows
reaches the row ceiling, so its `truncated` flag is true even though the
normalized flattened text (about 400 characters) is far below the
15,000-character ceiling — the flag is not `true` iff the text exceeded
the length ceiling. -/
theorem C5_truncated_flag_counterexample :
    (truncateXLSX [("S", List.replicate 200 ["x"])]).truncated = true
    ∧ (normalizeText (xlsxLoop [("S", List.replicate 200 ["x"])] 0).1).length ≤
        MAX_TEXT_LENGTH
    ∧ (truncateText (xlsxLoop [("S", List.replicate 200 ["x"])] 0).1
        MAX_TEXT_LENGTH).truncated = false := by
  refine ⟨by decide, by decide, by decide⟩

/-- `lastIdxOf` returns an index holding the sought character. -/
theorem lastIdxOf_get (c : Char) :
    ∀ (l : List Char) (i : Nat), lastIdxOf c l = some i → l.get? i = some c := by
  intro l
  induction l with
  | nil => intro i h; simp [lastIdxOf] at h
  | cons x rest ih =>
    intro i h
    unfold lastIdxOf at h
    split at h
    · rename_i k hrec
      injection h with h2
      subst h2
      simpa using ih k hrec
    · rename_i hrec
      split at h
      · rename_i hx
        injection h with h2
        subst h2
        rw [List.get?_cons_zero]
        exact congrArg some (beq_iff_eq.mp hx)
      · exact absurd h (by simp)

/-- When `lastIdxOf` finds nothing, the character occurs nowhere. -/
theorem lastIdxOf_none (c : Char) :
    ∀ (l : List Char), lastIdxOf c l = none → ∀ j, l.get? j ≠ some c := by
  intro l
  induction l with
  | nil => intro _ j; simp
  | cons x rest ih =>
    intro h j
    unfold lastIdxOf at h
    split at h
    · exact absurd h (by simp)
    · rename_i hrec
      by_cases hx : (x == c) = true
      · rw [if_pos hx] at h
        exact absurd h (by simp)
      · cases j with
        | zero =>
          simp only [List.get?_cons_zero, ne_eq, Option.some.injEq]
          intro hxc
          exact hx (beq_iff_eq.mpr hxc)
        | succ m => simpa using ih hrec m

/-- `lastIdxOf` returns the last occurrence: no later index holds the
character. -/
theorem lastIdxOf_ge (c : Char) :
    ∀ (l : List Char) (i j : Nat), lastIdxOf c l = some i →
      l.get? j = some c → j ≤ i := by
  intro l
  induction l with
  | nil => intro i j h; simp [lastIdxOf] at h
  | cons x rest ih =>
    intro i j h hj
    unfold lastIdxOf at h
    split at h
    · rename_i k hrec
      injection h with h2
      subst h2
      cases j with
      | zero => omega
      | succ m =>
        have hm : rest.get? m = some c := by simpa using hj
        have := ih k m hrec hm
        omega
    · rename_i hrec
      split at h
      · injection h with h2
        subst h2
        cases j with
        | zero => omega
        | succ m =>
          have hm : rest.get? m = some c := by simpa using hj
          exact absurd hm (lastIdxOf_none c rest hrec m)
      · exact absurd h (by simp)

/-- C6.  For any input whose normalized form fits the 15,000 ceiling,
truncation returns exactly the normalized text un-truncated; for any
longer input the result is at most 15,000 characters, ends with `...`, is
flagged truncated, and whenever a space occurs in the final 20% of the
14,997-character prefix budget the cut happens at a space of that zone
(the text is a prefix of the normalized text ending at a space), so no
word is split. -/
theorem C6_truncation_roundtrip (t : String) :
    ((normalizeText t).length ≤ 15000 →
      truncateText t 15000 =
        { text := normalizeText t, truncated := false,
          originalLength := t.length })
    ∧ (15000 < (normalizeText t).length →
        (truncateText t 15000).text.length ≤ 15000
        ∧ (∃ p, (truncateText t 15000).text.data = p ++ ['.', '.', '.'])
        ∧ (truncateText t 15000).truncated = true
        ∧ ∀ j, ((normalizeText t).data.take 14997).get? j = some ' ' →
            4 * 14997 < 5 * j →
            ∃ i, (normalizeText t).data.get? i = some ' ' ∧ 4 * 14997 < 5 * i ∧
              (truncateText t 15000).text.data =
                (normalizeText t).data.take i ++ ['.', '.', '.']) := by
  constructor
  · intro h
    simp only [truncateText]
    rw [if_pos h]
  · intro h
    have hnle : ¬ (normalizeText t).length ≤ 15000 := by omega
    have hdlen : (normalizeText t).data.length = (normalizeText t).length := rfl
    have hPlen : ((normalizeText t).data.take 14997).length = 14997 := by
      rw [List.length_take]
      omega
    have htrunc : truncateText t 15000 =
        { text := ⟨(match lastIdxOf ' ' ((normalizeText t).data.take (15000 - 3)) with
            | some i =>
              if 4 * (15000 - 3) < 5 * i then
                ((normalizeText t).data.take (15000 - 3)).take i
              else (normalizeText t).data.take (15000 - 3)
            | none => (normalizeText t).data.take (15000 - 3)) ++ ['.', '.', '.']⟩,
          truncated := true, originalLength := t.length } := by
      simp only [truncateText]
      rw [if_neg hnle]
    have h3 : (15000 : Nat) - 3 = 14997 := rfl
    rw [h3] at htrunc
    rcases hidx : lastIdxOf ' ' ((normalizeText t).data.take 14997) with _ | i
    · rw [hidx] at htrunc
      simp only [] at htrunc
      refine ⟨?_, ⟨_, by rw [htrunc]⟩, by rw [htrunc], ?_⟩
      · rw [htrunc, strLength_mk, List.length_append, hPlen]
        simp only [List.length_cons, List.length_nil]
        omega
      · intro j hj _
        exact absurd hj (lastIdxOf_none ' ' _ hidx j)
    · have hget := lastIdxOf_get ' ' _ i hidx
      have hilt : i < 14997 := by
        by_contra hcon
        have hnone : ((normalizeText t).data.take 14997).get? i = none :=
          List.get?_eq_none.mpr (by omega)
        rw [hnone] at hget
        exact absurd hget (by simp)
      rw [hidx] at htrunc
      simp only [] at htrunc
      by_cases hcmp : 4 * 14997 < 5 * i
      · rw [if_pos hcmp] at htrunc
        refine ⟨?_, ⟨_, by rw [htrunc]⟩, by rw [htrunc], ?_⟩
        · rw [htrunc, strLength_mk, List.length_append, List.length_take, hPlen,
            min_eq_left (le_of_lt hilt)]
          simp only [List.length_cons, List.length_nil]
          omega
        · intro j hj hgt
          refine ⟨i, ?_, hcmp, ?_⟩
          · rw [← List.get?_take hilt]
            exact hget
          · rw [htrunc, List.take_take, min_eq_left (by omega)]
      · rw [if_neg hcmp] at htrunc
        refine ⟨?_, ⟨_, by rw [htrunc]⟩, by rw [htrunc], ?_⟩
        · rw [htrunc, strLength_mk, List.length_append, hPlen]
          simp only [List.length_cons, List.length_nil]
          omega
        · intro j hj hgt
          have hle := lastIdxOf_ge ' ' _ i j hidx hj
          omega

/-! ## Normalization identity lemmas (for the C6 witness) -/

/-- Filtering out NULs leaves a NUL-free list unchanged. -/
theorem filter_nonnul_eq_self (l : List Char) (h : ∀ x ∈ l, x.toNat ≠ 0) :
    l.filter (fun c => c.toNat ≠ 0) = l := by
  rw [List.filter_eq_self]
  intro a ha
  simpa using h a ha

/-- `fixCRLF` leaves a CR-free list unchanged. -/
theorem fixCRLF_eq_self : ∀ (l : List Char), (∀ x ∈ l, x ≠ '\r') → fixCRLF l = l
  | [], _ => rfl
  | [_], _ => rfl
  | c1 :: c2 :: rest, h => by
    have h1 : ¬ (c1 = '\r') := h c1 (by simp)
    have hcond : (c1 == '\r' && c2 == '\n') = false := by
      have hb : (c1 == '\r') = false := beq_eq_false_iff_ne.mpr h1
      simp [hb]
    simp only [fixCRLF, hcond, Bool.false_eq_true, if_false]
    exact congrArg (c1 :: ·)
      (fixCRLF_eq_self (c2 :: rest) (fun x hx => h x (List.mem_cons_of_mem _ hx)))

/-- `collapseHWSAux` leaves a list without horizontal whitespace
unchanged, whatever the run flag. -/
theorem collapseHWSAux_eq_self :
    ∀ (b : Bool) (l : List Char), (∀ x ∈ l, isHWSChar x = false) →
      collapseHWSAux b l = l
  | _, [], _ => rfl
  | b, c :: rest, h => by
    have h1 : isHWSChar c = false := h c (by simp)
    simp only [collapseHWSAux, h1, Bool.false_eq_true, if_false]
    exact congrArg (c :: ·)
      (collapseHWSAux_eq_self false rest (fun x hx => h x (List.mem_cons_of_mem _ hx)))

/-- `capNewlinesAux` leaves a newline-free list unchanged, whatever the
run counter. -/
theorem capNewlinesAux_eq_self :
    ∀ (s : Nat) (l : List Char), (∀ x ∈ l, x ≠ '\n') → capNewlinesAux s l = l
  | _, [], _ => rfl
  | s, c :: rest, h => by
    have h1 : (c == '\n') = false := beq_eq_false_iff_ne.mpr (h c (by simp))
    simp only [capNewlinesAux, h1, Bool.false_eq_true, if_false]
    exact congrArg (c :: ·)
      (capNewlinesAux_eq_self 0 rest (fun x hx => h x (List.mem_cons_of_mem _ hx)))

/-- `dropWhile` over JS whitespace leaves a whitespace-free list
unchanged. -/
theorem dropWhile_jsws_eq_self (l : List Char)
    (h : ∀ x ∈ l, isJSWSChar x = false) : l.dropWhile isJSWSChar = l := by
  cases l with
  | nil => rfl
  | cons c rest =>
    rw [List.dropWhile_cons, h c (by simp)]
    simp

/-- `trimJS` leaves a whitespace-free list unchanged. -/
theorem trimJS_eq_self (l : List Char)
    (h : ∀ x ∈ l, isJSWSChar x = false) : trimJS l = l := by
  unfold trimJS
  rw [dropWhile_jsws_eq_self l h,
    dropWhile_jsws_eq_self l.reverse (fun x hx => h x (List.mem_reverse.mp hx)),
    List.reverse_reverse]

/-- The whole normalization pipeline fixes a list free of NULs and JS
whitespace. -/
theorem normalizeChars_eq_self (l : List Char)
    (h : ∀ x ∈ l, x.toNat ≠ 0 ∧ isJSWSChar x = false) : normalizeChars l = l := by
  have h0 : ∀ x ∈ l, x.toNat ≠ 0 := fun x hx => (h x hx).1
  have hws : ∀ x ∈ l, isJSWSChar x = false := fun x hx => (h x hx).2
  have hcr : ∀ x ∈ l, x ≠ '\r' := by
    intro x hx heq
    subst heq
    exact absurd (hws _ hx) (by decide)
  have hhws : ∀ x ∈ l, isHWSChar x = false := by
    intro x hx
    have h2 := hws x hx
    unfold isJSWSChar at h2
    exact (Bool.or_eq_false_iff.mp h2).1
  have hnl : ∀ x ∈ l, x ≠ '\n' := by
    intro x hx
    have h2 := hws x hx
    unfold isJSWSChar at h2
    exact beq_eq_false_iff_ne.mp (Bool.or_eq_false_iff.mp h2).2
  unfold normalizeChars
  rw [filter_nonnul_eq_self l h0, fixCRLF_eq_self l hcr]
  simp only [collapseHWS, capNewlines]
  rw [collapseHWSAux_eq_self false l hhws, capNewlinesAux_eq_self 0 l hnl,
    trimJS_eq_self l hws]

/-- Concrete instances of C6: a short string passes through unchanged, and
a 15,001-character string is flagged truncated. -/
theorem C6_truncation_roundtrip_witness :
    truncateText "a b" 15000 =
      { text := normalizeText "a b", truncated := false, originalLength := 3 }
    ∧ (truncateText (⟨List.replicate 15001 'a'⟩ : String) 15000).truncated = true := by
  constructor
  · exact (C6_truncation_roundtrip "a b").1 (by decide)
  · have h1 : normalizeChars (List.replicate 15001 'a') = List.replicate 15001 'a' :=
      normalizeChars_eq_self _ (by
        intro x hx
        obtain rfl := List.eq_of_mem_replicate hx
        exact ⟨by decide, by decide⟩)
    have hlen : 15000 < (normalizeText (⟨List.replicate 15001 'a'⟩ : String)).length := by
      have h2 : (normalizeText (⟨List.replicate 15001 'a'⟩ : String)).length =
          (normalizeChars (List.replicate 15001 'a')).length := rfl
      rw [h2, h1, List.length_replicate]
      omega
    exact ((C6_truncation_roundtrip _).2 hlen).2.2.1

/-! ## Per-file failure isolation (C1) -/

set_option maxRecDepth 4000 in
/-- C1 counterexample: in a two-file batch where `a.txt`'s model replies
are invalid JSON on every attempt (exhausting the JSON-repair follow-up
and the five-attempt outer retry) and `b.txt` succeeds, the run's `errors`
list is empty — it does not contain a string naming `a.txt`, because
`processSingleFile` records the failure only in the file's own `llmErrors`
field, which `processZipFile` never merges into `processingErrors`.  The
failed file still contributes no finding, and the other file completes. -/
theorem C1_llm_failure_isolation_counterexample :
    (buildAnalyseResponse
      (processZipFile (Except.ok ⟨["a.txt", "b.txt"], []⟩)
        (fun n =>
          if n = "a.txt" then
            FileEnv.mk (Except.ok ⟨"hello", false, 5⟩)
              (fun _ => GuardEnv.mk true (some (some JsonVal.null))
                (some (some JsonVal.null)))
          else
            FileEnv.mk (Except.ok ⟨"world", false, 5⟩)
              (fun _ => GuardEnv.mk true
                (some (some (JsonVal.obj
                  [("doc", JsonVal.str "b.txt"),
                   ("category", JsonVal.str "legal"),
                   ("facts", JsonVal.arr [JsonVal.str "f"]),
                   ("red_flags", JsonVal.arr [])])))
                none)))
      (Except.ok "narrative")).errors = []
    ∧ (buildAnalyseResponse
      (processZipFile (Except.ok ⟨["a.txt", "b.txt"], []⟩)
        (fun n =>
          if n = "a.txt" then
            FileEnv.mk (Except.ok ⟨"hello", false, 5⟩)
              (fun _ => GuardEnv.mk true (some (some JsonVal.null))
                (some (some JsonVal.null)))
          else
            FileEnv.mk (Except.ok ⟨"world", false, 5⟩)
              (fun _ => GuardEnv.mk true
                (some (some (JsonVal.obj
                  [("doc", JsonVal.str "b.txt"),
                   ("category", JsonVal.str "legal"),
                   ("facts", JsonVal.arr [JsonVal.str "f"]),
                   ("red_flags", JsonVal.arr [])])))
                none)))
      (Except.ok "narrative")).docs =
      [⟨"b.txt", DocumentCategory.legal, ["f"], []⟩]
    ∧ (processZipFile (Except.ok ⟨["a.txt", "b.txt"], []⟩)
        (fun n =>
          if n = "a.txt" then
            FileEnv.mk (Except.ok ⟨"hello", false, 5⟩)
              (fun _ => GuardEnv.mk true (some (some JsonVal.null))
                (some (some JsonVal.null)))
          else
            FileEnv.mk (Except.ok ⟨"world", false, 5⟩)
              (fun _ => GuardEnv.mk true
                (some (some (JsonVal.obj
                  [("doc", JsonVal.str "b.txt"),
                   ("category", JsonVal.str "legal"),
                   ("facts", JsonVal.arr [JsonVal.str "f"]),
                   ("red_flags", JsonVal.arr [])])))
                none))).processedFiles.length = 2 :=
  ⟨rfl, rfl, rfl⟩

/-- C1 (amended).  In a non-empty batch every file is processed (the
result holds one `ProcessedFile` per input, in order) and the run-level
error list is the extraction errors plus the per-file `processingErrors`
only.  A file whose truncation succeeded but whose gateway call failed
after the outer five-attempt retry ends with `llmAnalysis = none` (so it
contributes no finding and no aggregate counts), empty `processingErrors`
(so nothing about it reaches the run's `errors`), and the single string
naming it recorded in its own `llmErrors` field, which no caller
propagates. -/
theorem C1_llm_failure_isolation (ex : ZipExtraction)
    (envOf : String → FileEnv) (hne : ex.files.length ≠ 0) :
    (processZipFile (Except.ok ex) envOf).processedFiles =
      ex.files.map (fun n => processSingleFile n (envOf n))
    ∧ (processZipFile (Except.ok ex) envOf).processingErrors =
        ex.errors ++ (ex.files.map
          (fun n => (processSingleFile n (envOf n)).processingErrors)).flatten
    ∧ (∀ s, (buildAnalyseResponse (processZipFile (Except.ok ex) envOf) s).docs =
        (ex.files.map (fun n => processSingleFile n (envOf n))).filterMap
          (fun f => f.llmAnalysis))
    ∧ (∀ nm env tc msg, env.truncation = Except.ok tc →
        (withRetry (fun i => (analyzeDocumentWithJSONGuard (env.guardAt i)).1)
          shouldRetry 5).1 = Except.error msg →
        processSingleFile nm env =
          { filename := nm, truncatedContent := tc, processingErrors := [],
            llmAnalysis := none,
            llmErrors := ["LLM analysis failed for " ++ nm ++ ": " ++ msg] }) := by
  have hzip : processZipFile (Except.ok ex) envOf =
      { processedFiles := ex.files.map (fun n => processSingleFile n (envOf n)),
        totalFiles := ex.files.length,
        successfulFiles := ((ex.files.map (fun n => processSingleFile n (envOf n))).filter
          (fun f => f.processingErrors.length == 0)).length,
        failedFiles := ((ex.files.map (fun n => processSingleFile n (envOf n))).filter
          (fun f => f.processingErrors.length != 0)).length,
        processingErrors := ex.errors ++ ((ex.files.map
          (fun n => processSingleFile n (envOf n))).map
            (fun f => f.processingErrors)).flatten } := by
    simp only [processZipFile]
    rw [if_neg hne]
  refine ⟨by rw [hzip], ?_, ?_, ?_⟩
  · rw [hzip]
    simp only [List.map_map]
    rfl
  · intro s
    rw [hzip]
    rfl
  · intro nm env tc msg htc hret
    simp only [processSingleFile]
    rw [htc, hret]

/-- Concrete instance of the amended C1 for a one-file batch whose model
replies never validate. -/
theorem C1_llm_failure_isolation_witness :
    (processZipFile
      (Except.ok ⟨["a.txt"], []⟩)
      (fun _ =>
        FileEnv.mk (Except.ok ⟨"hi", false, 2⟩)
          (fun _ => GuardEnv.mk true (some (some JsonVal.null))
            (some (some JsonVal.null))))).processedFiles =
      ["a.txt"].map (fun n => processSingleFile n
        ((fun _ =>
          FileEnv.mk (Except.ok ⟨"hi", false, 2⟩)
            (fun _ => GuardEnv.mk true (some (some JsonVal.null))
              (some (some JsonVal.null)))) n)) :=
  (C1_llm_failure_isolation ⟨["a.txt"], []⟩
    (fun _ =>
      FileEnv.mk (Except.ok ⟨"hi", false, 2⟩)
        (fun _ => GuardEnv.mk true (some (some JsonVal.null))
          (some (some JsonVal.null))))
    (by decide)).1

/-! ## Lemmas about the classifier -/

/-- C8.  `classifyDocument` is a pure function of its two inputs; with
`a`, `b`, `c`, `d` the keyword scores of financial, legal, commercial and
operations over the lower-cased concatenation and `M` their maximum: the
result is `other` exactly when all four scores are zero, and otherwise the
result is the first category in the priority order financial > legal >
commercial > operations whose score attains `M` — in particular a category
with the strictly highest score wins, and ties break by that priority. -/
theorem C8_classifier_behaviour (filename content : String) (a b c d M : Nat)
    (ha : a = scoreFor (toLowerStr (filename ++ " " ++ content)) .financial)
    (hb : b = scoreFor (toLowerStr (filename ++ " " ++ content)) .legal)
    (hc : c = scoreFor (toLowerStr (filename ++ " " ++ content)) .commercial)
    (hd : d = scoreFor (toLowerStr (filename ++ " " ++ content)) .operations)
    (hM : M = max a (max b (max c d))) :
    (∀ f2 t2, f2 = filename → t2 = content →
      classifyDocument f2 t2 = classifyDocument filename content)
    ∧ (classifyDocument filename content = .other ↔
        (a = 0 ∧ b = 0 ∧ c = 0 ∧ d = 0))
    ∧ (a = M → 0 < M → classifyDocument filename content = .financial)
    ∧ (a < M → b = M → classifyDocument filename content = .legal)
    ∧ (a < M → b < M → c = M → classifyDocument filename content = .commercial)
    ∧ (a < M → b < M → c < M → d = M →
        classifyDocument filename content = .operations) := by
  have hoth : scoreFor (toLowerStr (filename ++ " " ++ content)) .other = 0 := rfl
  have hbounds : a ≤ M ∧ b ≤ M ∧ c ≤ M ∧ d ≤ M := by
    subst hM
    exact ⟨le_max_left _ _,
      le_trans (le_max_left _ _) (le_max_right _ _),
      le_trans (le_trans (le_max_left _ _) (le_max_right _ _)) (le_max_right _ _),
      le_trans (le_trans (le_max_right _ _) (le_max_right _ _)) (le_max_right _ _)⟩
  have hattain : M = a ∨ M = b ∨ M = c ∨ M = d := by
    subst hM
    rcases max_choice a (max b (max c d)) with h | h
    · exact Or.inl h
    · rcases max_choice b (max c d) with h2 | h2
      · exact Or.inr (Or.inl (h.trans h2))
      · rcases max_choice c d with h3 | h3
        · exact Or.inr (Or.inr (Or.inl ((h.trans h2).trans h3)))
        · exact Or.inr (Or.inr (Or.inr ((h.trans h2).trans h3)))
  have hfold : ((categoryOrder.map
      (fun cc => scoreFor (toLowerStr (filename ++ " " ++ content)) cc)).foldr
        max 0) = M := by
    rw [hM, ha, hb, hc, hd]
    simp [categoryOrder, hoth, Nat.max_zero]
  have hunfold : classifyDocument filename content =
      (if M = 0 then DocumentCategory.other
       else
        match categoryOrder.find? (fun cc =>
            scoreFor (toLowerStr (filename ++ " " ++ content)) cc == M) with
        | some cc => cc
        | none => DocumentCategory.other) := by
    simp only [classifyDocument]
    rw [hfold]
  have hcompute : classifyDocument filename content =
      (if M = 0 then DocumentCategory.other
       else if a = M then DocumentCategory.financial
       else if b = M then DocumentCategory.legal
       else if c = M then DocumentCategory.commercial
       else if d = M then DocumentCategory.operations
       else DocumentCategory.other) := by
    rw [hunfold]
    by_cases hM0 : M = 0
    · rw [if_pos hM0, if_pos hM0]
    · rw [if_neg hM0, if_neg hM0]
      simp only [categoryOrder]
      by_cases h1 : a = M
      · rw [List.find?_cons_of_pos _ (by simp [← ha, h1]), if_pos h1]
      · rw [List.find?_cons_of_neg _ (by simp [← ha]; omega), if_neg h1]
        by_cases h2 : b = M
        · rw [List.find?_cons_of_pos _ (by simp [← hb, h2]), if_pos h2]
        · rw [List.find?_cons_of_neg _ (by simp [← hb]; omega), if_neg h2]
          by_cases h3 : c = M
          · rw [List.find?_cons_of_pos _ (by simp [← hc, h3]), if_pos h3]
          · rw [List.find?_cons_of_neg _ (by simp [← hc]; omega), if_neg h3]
            by_cases h4 : d = M
            · rw [List.find?_cons_of_pos _ (by simp [← hd, h4]), if_pos h4]
            · rw [List.find?_cons_of_neg _ (by simp [← hd]; omega), if_neg h4]
              rw [List.find?_cons_of_neg _ (by simp [hoth]; omega)]
              simp
  refine ⟨fun f2 t2 h1 h2 => by rw [h1, h2], ?_, ?_, ?_, ?_, ?_⟩
  · constructor
    · intro hcl
      rw [hcompute] at hcl
      by_cases hM0 : M = 0
      · omega
      · rw [if_neg hM0] at hcl
        by_cases h1 : a = M
        · rw [if_pos h1] at hcl
          simp at hcl
        · rw [if_neg h1] at hcl
          by_cases h2 : b = M
          · rw [if_pos h2] at hcl
            simp at hcl
          · rw [if_neg h2] at hcl
            by_cases h3 : c = M
            · rw [if_pos h3] at hcl
              simp at hcl
            · rw [if_neg h3] at hcl
              by_cases h4 : d = M
              · rw [if_pos h4] at hcl
                simp at hcl
              · omega
    · intro hz
      have hM0 : M = 0 := by omega
      rw [hcompute, if_pos hM0]
  · intro h1 h2
    rw [hcompute, if_neg (by omega), if_pos h1]
  · intro hlt h2
    rw [hcompute, if_neg (by omega), if_neg (by omega), if_pos h2]
  · intro hl1 hl2 h3
    rw [hcompute, if_neg (by omega), if_neg (by omega), if_neg (by omega),
      if_pos h3]
  · intro hl1 hl2 hl3 h4
    rw [hcompute, if_neg (by omega), if_neg (by omega), if_neg (by omega),
      if_neg (by omega), if_pos h4]

/-- Concrete instance of C8: a document whose combined text matches only
the two commercial keywords `invoice` and `payment` is classified
commercial. -/
theorem C8_classifier_behaviour_witness :
    classifyDocument "invoice.pdf" "payment terms" = DocumentCategory.commercial := by
  refine (C8_classifier_behaviour "invoice.pdf" "payment terms" 0 0 2 0 2
    (by decide) (by decide) (by decide) (by decide) (by decide)).2.2.2.2.1 ?_ ?_ rfl
  · omega
  · omega

/-! ## Lemmas about the aggregator -/

/-- Bucket view of one reducer step of `aggregateResults`. -/
theorem aggAdd_get (acc : Aggregate) (d : DocResult) (c : DocumentCategory) :
    (aggAdd acc d).get c =
      if d.category = c then
        ⟨(acc.get c).facts + d.facts.length,
         (acc.get c).red_flags + d.red_flags.length⟩
      else acc.get c := by
  rcases d with ⟨doc, cat, facts, flags⟩
  cases cat <;> cases c <;> simp [aggAdd, Aggregate.get]

/-- Closed form of the aggregation fold: each bucket accumulates the sums
of `facts.length` and `red_flags.length` over the findings that report its
category. -/
theorem foldl_aggAdd_get (c : DocumentCategory) :
    ∀ (docs : List DocResult) (acc : Aggregate),
      (docs.foldl aggAdd acc).get c =
        ⟨(acc.get c).facts +
          ((docs.filter (fun d => d.category == c)).map
            (fun d => d.facts.length)).sum,
         (acc.get c).red_flags +
          ((docs.filter (fun d => d.category == c)).map
            (fun d => d.red_flags.length)).sum⟩ := by
  intro docs
  induction docs with
  | nil => intro acc; simp
  | cons d docs ih =>
    intro acc
    rw [List.foldl_cons, ih (aggAdd acc d), aggAdd_get]
    by_cases hc : d.category = c
    · simp [hc]
      omega
    · simp [hc]

/-- Two aggregates with the same buckets are equal. -/
theorem Aggregate.ext_of_get (a b : Aggregate)
    (h : ∀ c, a.get c = b.get c) : a = b := by
  cases a
  cases b
  have h1 := h .financial
  have h2 := h .legal
  have h3 := h .commercial
  have h4 := h .operations
  have h5 := h .other
  simp only [Aggregate.get] at h1 h2 h3 h4 h5
  simp [h1, h2, h3, h4, h5]

/-- Every bucket of the empty aggregate is zero. -/
theorem createEmptyAggregate_get (c : DocumentCategory) :
    createEmptyAggregate.get c = ⟨0, 0⟩ := by
  cases c <;> rfl

/-- C7.  The aggregator yields, for each of the five categories (the
`Aggregate` structure is total, so every category is present, and the
empty list gives `createEmptyAggregate`), the sums of `facts.length` and
`red_flags.length` over the findings reporting that category, and the fold
is invariant under permutation of the input list. -/
theorem C7_aggregate_counts (docs docs2 : List DocResult)
    (hperm : docs.Perm docs2) :
    (∀ c, (aggregateResults docs).get c =
      ⟨((docs.filter (fun d => d.category == c)).map
          (fun d => d.facts.length)).sum,
       ((docs.filter (fun d => d.category == c)).map
          (fun d => d.red_flags.length)).sum⟩)
    ∧ aggregateResults [] = createEmptyAggregate
    ∧ aggregateResults docs = aggregateResults docs2 := by
  have hchar : ∀ (l : List DocResult) (c : DocumentCategory),
      (aggregateResults l).get c =
        ⟨((l.filter (fun d => d.category == c)).map
            (fun d => d.facts.length)).sum,
         ((l.filter (fun d => d.category == c)).map
            (fun d => d.red_flags.length)).sum⟩ := by
    intro l c
    rw [aggregateResults, foldl_aggAdd_get, createEmptyAggregate_get]
    simp
  refine ⟨hchar docs, rfl, ?_⟩
  refine Aggregate.ext_of_get _ _ (fun c => ?_)
  rw [hchar docs, hchar docs2]
  have hp := hperm.filter (fun d => d.category == c)
  rw [(hp.map (fun d => d.facts.length)).sum_eq,
    (hp.map (fun d => d.red_flags.length)).sum_eq]

/-- Concrete instance of C7: folding a two-document list and its
permutation gives the same aggregate, with the financial bucket counting
the financial document's two facts and one red flag. -/
theorem C7_aggregate_counts_witness :
    (aggregateResults
        [⟨"a.pdf", .financial, ["f1", "f2"], ["r1"]⟩,
         ⟨"b.docx", .legal, ["f3"], []⟩]).get .financial = ⟨2, 1⟩
    ∧ aggregateResults
        [⟨"a.pdf", .financial, ["f1", "f2"], ["r1"]⟩,
         ⟨"b.docx", .legal, ["f3"], []⟩] =
      aggregateResults
        [⟨"b.docx", .legal, ["f3"], []⟩,
         ⟨"a.pdf", .financial, ["f1", "f2"], ["r1"]⟩] := by
  have h := C7_aggregate_counts
    [⟨"a.pdf", .financial, ["f1", "f2"], ["r1"]⟩, ⟨"b.docx", .legal, ["f3"], []⟩]
    [⟨"b.docx", .legal, ["f3"], []⟩, ⟨"a.pdf", .financial, ["f1", "f2"], ["r1"]⟩]
    (List.Perm.swap _ _ _)
  exact ⟨by rw [h.1 .financial]; rfl, h.2.2⟩

/-- C9.  `withRetry` with predicate `p` and attempt ceiling `M`:
(1) if the first `N - 1` calls fail with errors `p` accepts (`N ≤ M`) and
the `N`-th call succeeds with `v`, exactly `N` calls are made and `v` is
returned; (2) if `p` rejects the first error, exactly one call is made and
that error propagates; (3) if all `M` calls fail with errors `p` accepts,
the last error is re-raised after exactly `M` calls. -/
theorem C9_withRetry_policy (f : Nat → Except String α) (p : String → Bool)
    (M : Nat) :
    (∀ N v, 1 ≤ N → N ≤ M →
      (∀ i, i + 1 < N → ∃ e, f i = .error e ∧ p e = true) →
      f (N - 1) = .ok v →
      withRetry f p M = (.ok v, N))
    ∧ (∀ e, 1 ≤ M → f 0 = .error e → p e = false →
        withRetry f p M = (.error e, 1))
    ∧ (1 ≤ M →
        (∀ i, i < M → ∃ e, f i = .error e ∧ p e = true) →
        ∃ e, f (M - 1) = .error e ∧ withRetry f p M = (.error e, M)) := by
  refine ⟨?_, ?_, ?_⟩
  · intro N v h1 h2 hfail hok
    exact withRetryGo_ok f p N M 0 v h1 h2 (by simpa using hfail) (by simpa using hok)
  · intro e hM he hp
    exact withRetryGo_noretry f p M 0 e hM he hp
  · intro hM hfail
    simpa using withRetryGo_exhaust f p M 0 hM (by simpa using hfail)

/-- C4 counterexample: with the credential absent, the per-document
analysis fails with the wrapped configuration message, the default retry
predicate classifies that message as retryable (its conservative default
branch — none of the permanent-failure substrings occur in it), and the
outer `withRetry` of `processSingleFile` therefore re-attempts the gateway
call: five calls are made, not one, before the error is surfaced. -/
theorem C4_missing_credential_counterexample :
    shouldRetry missingKeyMsg = true ∧
    withRetry
      (fun _ => (analyzeDocumentWithJSONGuard
        { apiKeyPresent := false, firstReply := none, retryReply := none }).1)
      shouldRetry 5 =
      (Except.error missingKeyMsg, 5) :=
  ⟨by decide, rfl⟩

/-- C4 (amended): when the configured model credential is absent, every
gateway invocation raises the fatal configuration error before any model
call (zero model calls, so the JSON-repair follow-up is never attempted);
however the outer retry policy treats the propagated message as retryable
(default branch of `shouldRetry`), so the call is re-attempted up to the
attempt ceiling and the same error is then surfaced. -/
theorem C4_missing_credential (envs : Nat → GuardEnv) (M : Nat)
    (hkey : ∀ i, (envs i).apiKeyPresent = false) (hM : 1 ≤ M) :
    (∀ i, analyzeDocumentWithJSONGuard (envs i) = (Except.error missingKeyMsg, 0))
    ∧ withRetry (fun i => (analyzeDocumentWithJSONGuard (envs i)).1)
        shouldRetry M = (Except.error missingKeyMsg, M) := by
  have hg : ∀ i, analyzeDocumentWithJSONGuard (envs i) =
      (Except.error missingKeyMsg, 0) := by
    intro i
    simp [analyzeDocumentWithJSONGuard, hkey i]
  refine ⟨hg, ?_⟩
  have hsr : shouldRetry missingKeyMsg = true := by decide
  have hf : ∀ i, (analyzeDocumentWithJSONGuard (envs i)).1 =
      Except.error missingKeyMsg := fun i => by rw [hg i]
  obtain ⟨e, he, hw⟩ := withRetryGo_exhaust
    (fun i => (analyzeDocumentWithJSONGuard (envs i)).1) shouldRetry M 0 hM
    (fun j _ => ⟨missingKeyMsg, hf _, hsr⟩)
  have h2 := hf (0 + (M - 1))
  rw [he] at h2
  simp only [Except.error.injEq] at h2
  rw [h2] at hw
  exact hw

/-- Concrete instance of the amended C4 at a concrete environment and the
default five-attempt ceiling. -/
theorem C4_missing_credential_witness :
    analyzeDocumentWithJSONGuard (GuardEnv.mk false none (some none)) =
      (Except.error missingKeyMsg, 0)
    ∧ withRetry
        (fun _ => (analyzeDocumentWithJSONGuard (GuardEnv.mk false none (some none))).1)
        shouldRetry 5 = (Except.error missingKeyMsg, 5) := by
  have h := C4_missing_credential (fun _ => GuardEnv.mk false none (some none)) 5
    (fun _ => rfl) (by omega)
  exact ⟨h.1 0, h.2⟩

/-- Concrete instance of C9: an operation that fails once with a timeout
and then succeeds is called exactly twice and yields the value. -/
theorem C9_withRetry_policy_witness :
    withRetry (fun i => if i == 0 then Except.error "timeout" else Except.ok 7)
      shouldRetry 5 = (Except.ok 7, 2) := by
  refine (C9_withRetry_policy
    (fun i => if i == 0 then Except.error "timeout" else Except.ok 7)
    shouldRetry 5).1 2 7 (by omega) (by omega) ?_ rfl
  intro i hi
  have hi0 : i = 0 := by omega
  subst hi0
  exact ⟨"timeout", rfl, by decide⟩
